import Mathlib

/-!
Shallow embedding of the pronunciation-analysis core of the quran-memorizer
repository, together with theorems settling the specification claims.

Conventions of the embedding:
* Python `float` values are modelled as rationals (`ℚ`); the IEEE value `inf`
  produced by the DTW lattice is modelled as `none` in `Option ℚ`.
* Python dicts whose values are read with `.get` are modelled as structures of
  `Option` fields; dicts used as key→value maps (phoneme scores, prosody
  similarities) are modelled as association lists in insertion order.
* Fallible code (a `NameError` raised at runtime) is modelled with `Except`.
-/

namespace QuranMemorizer

/-! ### Tajweed rule engine (src/backend/ai/audio_processing/tajweed_engine.py) -/

/-- Mirrors the `TajweedViolation` dataclass (tajweed_engine.py lines 23-35). -/
structure TajweedViolation where
  rule_name : String
  rule_category : String
  position : Nat
  start_time : ℚ
  end_time : ℚ
  expected : String
  actual : String
  severity : String
  description : String
  suggestion : String
deriving DecidableEq

/-- The optional `audio_features` dict read by the detectors: the engine reads
only the keys `duration` (Madd check) and `ghunnah_duration` (Ghunnah check);
a missing key is `none`. -/
structure AudioFeatures where
  duration : Option ℚ := none
  ghunnah_duration : Option ℚ := none
deriving DecidableEq

/-- Arabic sukoon diacritic U+0652, written via its code point because it is a
combining character. -/
def sukoon : Char := Char.ofNat 0x0652

/-- Letters after noon-sakinah that trigger the Ghunnah pattern `نْ[ينمو]`
(tajweed_engine.py line 367). -/
def ghunnahFollowers : List Char := ['ي', 'ن', 'م', 'و']

/-- Start positions of non-overlapping matches of the regex `نْ[ينمو]` in a
character list, scanning left to right as `re.finditer` does; `i` is the
offset of the head of the list in the original text. -/
def ghunnahMatchPositions : List Char → Nat → List Nat
  | c1 :: c2 :: c3 :: rest, i =>
    if c1 = 'ن' ∧ c2 = sukoon ∧ c3 ∈ ghunnahFollowers then
      i :: ghunnahMatchPositions rest (i + 3)
    else
      ghunnahMatchPositions (c2 :: c3 :: rest) (i + 1)
  | _, _ => []
termination_by cs _ => cs.length

/-- `TajweedEngine._check_madd_violations` (tajweed_engine.py lines 330-357).
Line 336 binds the local variable `compulsory_madd_pattern`, but line 337
passes the undefined name `compulsible_madd_pattern` to `re.finditer`, so the
Python function raises `NameError` before inspecting the text, on every input.
The embedding therefore returns that error unconditionally. -/
def check_madd_violations (_text : String) (_audio_features : Option AudioFeatures) :
    Except String (List TajweedViolation) :=
  .error "NameError: name compulsible_madd_pattern is not defined"

/-- `TajweedEngine._check_ghunnah_violations` (tajweed_engine.py lines
359-387): for each match of `نْ[ينمو]`, if `audio_features` carries a
`ghunnah_duration` below 2 counts, emit a major Ghunnah violation.  The
source formats the measured duration into the `actual` string with `.2f`;
that numeric formatting is elided here. -/
def check_ghunnah_violations (text : String) (audio_features : Option AudioFeatures) :
    List TajweedViolation :=
  (ghunnahMatchPositions text.data 0).filterMap fun pos =>
    match audio_features with
    | some af =>
      match af.ghunnah_duration with
      | some duration =>
        if duration < 2 then
          some { rule_name := "الغنة مع النون الساكنة - Ghunnah with Noon Sakinah"
                 rule_category := "Ghunnah"
                 position := pos
                 start_time := 0
                 end_time := 0
                 expected := "2 counts nasalization"
                 actual := "counts"
                 severity := "major"
                 description := "Ghunnah requires 2 counts"
                 suggestion := "Apply proper nasalization for 2 beats" }
        else none
      | none => none
    | none => none

/-- `TajweedEngine._check_idgham_violations` (tajweed_engine.py lines
389-403): the loop runs `re.search` for each assimilation letter but its body
is `pass`; nothing is ever appended, so the function returns the empty list on
every text.  No Iqlab, Ikhfa or Idhhar detector exists anywhere in the
engine. -/
def check_idgham_violations (_text : String) : List TajweedViolation := []

/-- `TajweedEngine._check_qalqalah_violations` (tajweed_engine.py lines
405-419): the loop over matches of a Qalqalah letter bearing sukoon binds the
matched character and then `pass`es; the returned list is always empty. -/
def check_qalqalah_violations (_text : String) : List TajweedViolation := []

/-- `TajweedEngine._check_heavy_light_violations` (tajweed_engine.py lines
421-440): both branches of the diacritic case split are `pass`; the returned
list is always empty. -/
def check_heavy_light_violations (_text : String) : List TajweedViolation := []

/-- `TajweedEngine.check_violations` (tajweed_engine.py lines 302-328):
extends an accumulator with the result of the five detector passes in order
(Madd, Ghunnah, Idgham, Qalqalah, Heavy/Light).  Because the Madd pass raises,
the whole call raises; the `Except` bind models that propagation.  The unused
`timestamps` parameter of the source is kept in the signature. -/
def check_violations (text : String) (audio_features : Option AudioFeatures)
    (_timestamps : Option Unit) : Except String (List TajweedViolation) := do
  let v1 ← check_madd_violations text audio_features
  let v2 := check_ghunnah_violations text audio_features
  let v3 := check_idgham_violations text
  let v4 := check_qalqalah_violations text
  let v5 := check_heavy_light_violations text
  return v1 ++ v2 ++ v3 ++ v4 ++ v5

/-! ### Score fusion
(src/backend/ai/audio_processing/pronunciation_analyzer.py, lines 433-478) -/

/-- A classified pronunciation-error dict as consumed by score fusion, which
reads only its `severity` key (one of `critical`, `major`, `minor`). -/
structure ClassifiedError where
  severity : String
deriving DecidableEq

/-- `max(0.0, min(1.0, x))`, the final clamp of the fusion code. -/
def clamp01 (x : ℚ) : ℚ := max 0 (min 1 x)

/-- `PronunciationAnalyzer._calculate_overall_score_enhanced`
(pronunciation_analyzer.py lines 433-478), translated term by term:
`dtw_score = max(0, 1 - dtw_distance)`; the phoneme and prosody terms are the
means of the dict values, `0.5` when the dict is empty; the per-severity
penalties are sums of a constant over the matching errors;
`tajweed_penalty = len(violations) * 0.08` with no inner `min`; the weighted
sum minus the penalties is clamped to `[0, 1]` at the very end.  Fractions
stand for the decimal literals: `3/10 = 0.3`, `2/5 = 0.4`, `3/20 = 0.15`,
`2/25 = 0.08`, `1/5 = 0.2`, `1/10 = 0.1`, `1/20 = 0.05`. -/
def calculate_overall_score_enhanced
    (dtw_distance : ℚ)
    (phoneme_scores : List (String × ℚ))
    (tajweed_violations : List TajweedViolation)
    (prosody_scores : List (String × ℚ))
    (pronunciation_errors : List ClassifiedError) : ℚ :=
  let dtw_score := max 0 (1 - dtw_distance)
  let phoneme_score :=
    if phoneme_scores ≠ [] then
      (phoneme_scores.map Prod.snd).sum / phoneme_scores.length
    else (1 : ℚ)/2
  let prosody_score :=
    if prosody_scores ≠ [] then
      (prosody_scores.map Prod.snd).sum / prosody_scores.length
    else (1 : ℚ)/2
  let critical_penalty :=
    ((pronunciation_errors.filter fun e => e.severity == "critical").map
      fun _ => (1 : ℚ)/5).sum
  let major_penalty :=
    ((pronunciation_errors.filter fun e => e.severity == "major").map
      fun _ => (1 : ℚ)/10).sum
  let minor_penalty :=
    ((pronunciation_errors.filter fun e => e.severity == "minor").map
      fun _ => (1 : ℚ)/20).sum
  let tajweed_penalty : ℚ := tajweed_violations.length * (2/25)
  let overall_score :=
    dtw_score * (3/10) +
    phoneme_score * (2/5) +
    prosody_score * (3/20) +
    (1 - tajweed_penalty) * (3/20)
  let overall_score := overall_score - critical_penalty - major_penalty - minor_penalty
  max 0 (min 1 overall_score)

/-- Modelled from the spec (§4.5), for refinement comparison with the code:
each term clamped to `[0, 1]` before combining, and
`tajweedTerm = 1 - min(1, violationCount * 0.08)`. -/
def fuse_spec
    (dtwDistance : ℚ)
    (phonemeScores : List (String × ℚ))
    (violations : List TajweedViolation)
    (prosodySimilarities : List (String × ℚ))
    (classifiedErrors : List ClassifiedError) : ℚ :=
  let dtwTerm := clamp01 (max 0 (1 - dtwDistance))
  let phonemeTerm := clamp01 <|
    if phonemeScores = [] then (1 : ℚ)/2
    else (phonemeScores.map Prod.snd).sum / phonemeScores.length
  let prosodyTerm := clamp01 <|
    if prosodySimilarities = [] then (1 : ℚ)/2
    else (prosodySimilarities.map Prod.snd).sum / prosodySimilarities.length
  let tajweedTerm := clamp01 (1 - min 1 ((violations.length : ℚ) * (2/25)))
  let overall :=
    dtwTerm * (3/10) + phonemeTerm * (2/5) + prosodyTerm * (3/20) + tajweedTerm * (3/20)
  let penalties : ℚ :=
    (classifiedErrors.filter fun e => e.severity == "critical").length * (1/5) +
    (classifiedErrors.filter fun e => e.severity == "major").length * (1/10) +
    (classifiedErrors.filter fun e => e.severity == "minor").length * (1/20)
  clamp01 (overall - penalties)

/-- The amended fusion contract: identical to `fuse_spec` except that no term
is individually clamped and the tajweed term is `1 - violationCount * 0.08`
with no inner `min` (it may go negative); only the final result is clamped. -/
def fuse_amended
    (dtwDistance : ℚ)
    (phonemeScores : List (String × ℚ))
    (violations : List TajweedViolation)
    (prosodySimilarities : List (String × ℚ))
    (classifiedErrors : List ClassifiedError) : ℚ :=
  let dtwTerm := max 0 (1 - dtwDistance)
  let phonemeTerm :=
    if phonemeScores = [] then (1 : ℚ)/2
    else (phonemeScores.map Prod.snd).sum / phonemeScores.length
  let prosodyTerm :=
    if prosodySimilarities = [] then (1 : ℚ)/2
    else (prosodySimilarities.map Prod.snd).sum / prosodySimilarities.length
  let tajweedTerm : ℚ := 1 - violations.length * (2/25)
  let penalties : ℚ :=
    (classifiedErrors.filter fun e => e.severity == "critical").length * (1/5) +
    (classifiedErrors.filter fun e => e.severity == "major").length * (1/10) +
    (classifiedErrors.filter fun e => e.severity == "minor").length * (1/20)
  clamp01 (dtwTerm * (3/10) + phonemeTerm * (2/5) + prosodyTerm * (3/20) +
    tajweedTerm * (3/20) - penalties)

/-- A concrete Tajweed violation value, used to build concrete violation
lists in counterexamples. -/
def violationEx : TajweedViolation where
  rule_name := "الإقلاب - Substitution"
  rule_category := "Iqlab"
  position := 0
  start_time := 0
  end_time := 0
  expected := ""
  actual := ""
  severity := "major"
  description := ""
  suggestion := ""

/-! ### Dynamic-time-warping distance
(src/backend/ai/audio_processing/pronunciation_analyzer.py, lines 123-161)

The cost lattice is initialized to `np.inf` except for cell `(0, 0) = 0`; IEEE
`inf` is modelled as `none : Option ℚ`.  The local distance
`np.linalg.norm(features1[i-1] - features2[j-1])` is an external numpy call;
the embedding is parametric in the local distance `d`, whose two properties
used by the claims (`d x x = 0` and `0 ≤ d x y`) hold for the Euclidean
norm. -/

/-- Minimum of two lattice cells, with `none` as `+∞`. -/
def oMin : Option ℚ → Option ℚ → Option ℚ
  | none, b => b
  | a, none => a
  | some x, some y => some (min x y)

/-- Add a finite local distance to a lattice cell; `inf + q = inf`. -/
def oAdd (q : ℚ) : Option ℚ → Option ℚ
  | none => none
  | some x => some (q + x)

/-- The cost lattice of `calculate_dtw_distance` (lines 138-152):
`cost_matrix[0, 0] = 0`, all other border cells `inf`, and
`cost_matrix[i, j] = local_distance + min(cost_matrix[i-1, j],
cost_matrix[i, j-1], cost_matrix[i-1, j-1])`.  The Python loops fill the
lattice row by row; this definition is the same recurrence written
recursively.  Indexing is `features1[i-1]`, `features2[j-1]`, always in
bounds for the cells actually reachable from `(n, m)`. -/
def costMatrix {α : Type} [Inhabited α] (d : α → α → ℚ) (xs ys : List α) :
    Nat → Nat → Option ℚ
  | 0, 0 => some 0
  | 0, _ + 1 => none
  | _ + 1, 0 => none
  | i + 1, j + 1 =>
    oAdd (d (xs.getD i default) (ys.getD j default))
      (oMin (oMin (costMatrix d xs ys i (j + 1)) (costMatrix d xs ys (i + 1) j))
        (costMatrix d xs ys i j))
termination_by i j => i + j

/-- `PronunciationAnalyzer.calculate_dtw_distance` (lines 123-161): the final
lattice cell `cost_matrix[n, m]` divided by `max(n, m)`, or `0.0` when
`max(n, m) = 0`.  A `none` result is the IEEE `inf` the Python function
returns when the lattice cell is unreachable. -/
def calculate_dtw_distance {α : Type} [Inhabited α] (d : α → α → ℚ)
    (features1 features2 : List α) : Option ℚ :=
  let n := features1.length
  let m := features2.length
  let distance := costMatrix d features1 features2 n m
  let max_len := max n m
  if 0 < max_len then distance.map (fun q => q / (max_len : ℚ)) else some 0

/-- A concrete local distance on `ℚ` (absolute difference), used to
instantiate the parametric DTW embedding in witnesses; it satisfies the two
properties of the Euclidean norm that the theorems assume. -/
def rabs (a b : ℚ) : ℚ := |a - b|

/-! ### Prosody comparison
(src/backend/ai/audio_processing/pronunciation_analyzer.py, lines 315-349) -/

/-- The prosody summary dict produced by `extract_prosodic_features` (lines
115-121); `_compare_prosody` reads each key with `.get`, so a missing key is
`none`. -/
structure ProsodySummary where
  average_pitch : Option ℚ := none
  average_intensity : Option ℚ := none
  max_intensity : Option ℚ := none
  duration : Option ℚ := none
  speech_rate : Option ℚ := none
deriving DecidableEq

/-- Python truthiness of `dict.get(key)`: `False` for a missing key (`None`)
and for the float `0.0`. -/
def truthy : Option ℚ → Bool
  | none => false
  | some x => x != 0

/-- One similarity entry: `1.0 - (diff / max_v if max_v > 0 else 0)` with
`diff = abs(a - b)` and `max_v = max(a, b)` (lines 327-329 and analogues). -/
def simTerm (a b : ℚ) : ℚ :=
  let diff := |a - b|
  let max_v := max a b
  1 - (if 0 < max_v then diff / max_v else 0)

/-- `PronunciationAnalyzer._compare_prosody` (lines 315-349): four sequential
`if` blocks over `average_pitch`, `average_intensity`, `duration` and
`speech_rate` (the `max_intensity` key is never compared), each guarded by
Python truthiness of both values, inserting into the result dict in that
order.  The dict is modelled as an association list in insertion order. -/
def compare_prosody (user_prosody reference_prosody : ProsodySummary) :
    List (String × ℚ) :=
  (if truthy user_prosody.average_pitch && truthy reference_prosody.average_pitch then
    [("pitch_similarity",
      simTerm (user_prosody.average_pitch.getD 0) (reference_prosody.average_pitch.getD 0))]
  else []) ++
  (if truthy user_prosody.average_intensity && truthy reference_prosody.average_intensity then
    [("intensity_similarity",
      simTerm (user_prosody.average_intensity.getD 0) (reference_prosody.average_intensity.getD 0))]
  else []) ++
  (if truthy user_prosody.duration && truthy reference_prosody.duration then
    [("duration_similarity",
      simTerm (user_prosody.duration.getD 0) (reference_prosody.duration.getD 0))]
  else []) ++
  (if truthy user_prosody.speech_rate && truthy reference_prosody.speech_rate then
    [("speech_rate_similarity",
      simTerm (user_prosody.speech_rate.getD 0) (reference_prosody.speech_rate.getD 0))]
  else [])

/-- Modelled from the spec (§4.3), for refinement comparison with the code:
for each numeric feature present in **both** summaries,
`similarity = 1 - abs(a - b) / max(a, b)`, defined as `1.0` when both values
are `0`; a feature missing from either summary is omitted.  All five summary
features take part, with output keys matching the code's naming scheme. -/
def compare_prosody_spec (user reference : ProsodySummary) : List (String × ℚ) :=
  (match user.average_pitch, reference.average_pitch with
   | some a, some b =>
     [("pitch_similarity", if a = 0 ∧ b = 0 then 1 else 1 - |a - b| / max a b)]
   | _, _ => []) ++
  (match user.average_intensity, reference.average_intensity with
   | some a, some b =>
     [("intensity_similarity", if a = 0 ∧ b = 0 then 1 else 1 - |a - b| / max a b)]
   | _, _ => []) ++
  (match user.max_intensity, reference.max_intensity with
   | some a, some b =>
     [("max_intensity_similarity", if a = 0 ∧ b = 0 then 1 else 1 - |a - b| / max a b)]
   | _, _ => []) ++
  (match user.duration, reference.duration with
   | some a, some b =>
     [("duration_similarity", if a = 0 ∧ b = 0 then 1 else 1 - |a - b| / max a b)]
   | _, _ => []) ++
  (match user.speech_rate, reference.speech_rate with
   | some a, some b =>
     [("speech_rate_similarity", if a = 0 ∧ b = 0 then 1 else 1 - |a - b| / max a b)]
   | _, _ => [])

/-- One feature of the amended prosody contract: the feature contributes an
entry only when it carries a nonzero value in both summaries, and then
`similarity = 1 - abs(a - b) / max(a, b)` when `max(a, b) > 0`, else `1`;
a feature that is missing, or `0`, on either side is omitted. -/
def amendedFeature (nm : String) (a b : Option ℚ) : List (String × ℚ) :=
  match a, b with
  | some x, some y =>
    if x ≠ 0 ∧ y ≠ 0 then [(nm, if 0 < max x y then 1 - |x - y| / max x y else 1)] else []
  | _, _ => []

/-- The amended prosody contract: only the four features average pitch,
average intensity, duration and speech rate are compared (`max_intensity`
never is), each under the presence rule of `amendedFeature`. -/
def compare_prosody_amended (user reference : ProsodySummary) : List (String × ℚ) :=
  amendedFeature "pitch_similarity" user.average_pitch reference.average_pitch ++
  amendedFeature "intensity_similarity" user.average_intensity reference.average_intensity ++
  amendedFeature "duration_similarity" user.duration reference.duration ++
  amendedFeature "speech_rate_similarity" user.speech_rate reference.speech_rate

/-! ### Word alignment
(src/backend/ai/audio_processing/asr_engine.py, lines 220-253) -/

/-- A per-word timing dict built by `transcribe` (asr_engine.py lines
173-178): keys `word`, `start`, `end`, `confidence`.  `end` is a Lean
keyword, so the field is named `stop`. -/
structure WordTiming where
  word : String
  start : ℚ
  stop : ℚ
  confidence : ℚ
deriving DecidableEq

/-- Mirrors the `TranscriptionSegment` dataclass (asr_engine.py lines 14-22);
`end` is named `stop`. -/
structure TranscriptionSegment where
  start : ℚ
  stop : ℚ
  text : String
  words : List WordTiming
  confidence : ℚ
  phonemes : List String
deriving DecidableEq

/-- Mirrors the `ASRResult` dataclass (asr_engine.py lines 25-32). -/
structure ASRResult where
  text : String
  segments : List TranscriptionSegment
  language : String
  duration : ℚ
  language_probability : ℚ
deriving DecidableEq

/-- One alignment dict of `get_word_alignment` (asr_engine.py lines 244-251);
the dict key `match` is a Lean keyword, hence the field name `isMatch`. -/
structure WordAlignmentEntry where
  reference_word : String
  recognized_word : String
  isMatch : Bool
  position : Nat
  confidence : ℚ
deriving DecidableEq

/-- Splits a character stream on whitespace runs, accumulating the current
word in reverse; empty fragments are dropped, as Python `str.split()` with no
argument does. -/
def wsTokenize : List Char → List Char → List String
  | [], acc => if acc = [] then [] else [String.mk acc.reverse]
  | c :: cs, acc =>
    if c.isWhitespace then
      (if acc = [] then [] else [String.mk acc.reverse]) ++ wsTokenize cs []
    else wsTokenize cs (c :: acc)

/-- Python `str.split()` with no argument: split on whitespace runs and drop
empty fragments. -/
def tokenize (s : String) : List String := wsTokenize s.data []

/-- `QuranASREngine.get_word_alignment` (asr_engine.py lines 220-253): split
both texts into words, compare position `i` for `i < min` of the lengths,
and record confidence `1.0` on an exact match, `0.5` otherwise.  Only
`asr_result.text` is read; the per-word confidences inside
`asr_result.segments` are never consulted. -/
def get_word_alignment (asr_result : ASRResult) (reference_text : String) :
    List WordAlignmentEntry :=
  let asr_words := tokenize asr_result.text
  let ref_words := tokenize reference_text
  let min_len := min asr_words.length ref_words.length
  (List.range min_len).map fun i =>
    let a := asr_words.getD i ""
    let r := ref_words.getD i ""
    let is_match := a == r
    { reference_word := r
      recognized_word := a
      isMatch := is_match
      position := i
      confidence := if is_match then 1 else (1 : ℚ)/2 }

/-- The amended word-aligner contract, phrased over the two texts alone:
tokenize both by whitespace, pair positions up to the shorter length
(trailing tokens of the longer side dropped), mark matches, and attach the
fixed confidences `1.0` / `0.5`; ASR-supplied per-word confidences play no
part. -/
def word_align_amended (recognized_text reference_text : String) :
    List WordAlignmentEntry :=
  let rw := tokenize recognized_text
  let fw := tokenize reference_text
  (rw.zip fw).enum.map fun p =>
    { reference_word := p.2.2
      recognized_word := p.2.1
      isMatch := p.2.1 == p.2.2
      position := p.1
      confidence := if p.2.1 == p.2.2 then 1 else (1 : ℚ)/2 }

/-- A concrete `ASRResult` whose collaborator-supplied per-word confidences
are all `0.9`, recognized text `a b c`. -/
def asrEx : ASRResult where
  text := "a b c"
  segments :=
    [{ start := 0
       stop := 3
       text := "a b c"
       words :=
         [{ word := "a", start := 0, stop := 1, confidence := (9 : ℚ)/10 },
          { word := "b", start := 1, stop := 2, confidence := (9 : ℚ)/10 },
          { word := "c", start := 2, stop := 3, confidence := (9 : ℚ)/10 }]
       confidence := (9 : ℚ)/10
       phonemes := [] }]
  language := "ar"
  duration := 3
  language_probability := (9 : ℚ)/10

/-! ### Best-of-N reference comparison
(src/backend/ai/audio_processing/pronunciation_analyzer.py, lines 480-499)

`compare_with_multiple_references` calls `analyze_pronunciation` once per
reference path and keeps the feedback with the running best `overall_score`
under a strict `>` test, starting from `best_feedback = None`,
`best_score = 0.0`.  The per-reference analysis (audio input and output) is
the external collaborator here, so the embedding is parametric in the
feedback type `Fb`, its score projection `overallScore`, and the analysis
function `analyze`. -/

/-- `PronunciationAnalyzer.compare_with_multiple_references` (lines
480-499). -/
def compare_with_multiple_references {Fb RefPath : Type}
    (overallScore : Fb → ℚ) (analyze : RefPath → Fb)
    (reference_paths : List RefPath) : Option Fb :=
  (reference_paths.foldl
    (fun (best : Option Fb × ℚ) ref_path =>
      let feedback := analyze ref_path
      if overallScore feedback > best.2 then (some feedback, overallScore feedback)
      else best)
    (none, 0)).1

/-! ### Helper lemmas -/

/-- Summing a constant over a mapped list is the length times the constant
(the shape of the per-severity penalty generators). -/
theorem sum_map_const {α : Type} (l : List α) (c : ℚ) :
    (l.map fun _ => c).sum = l.length * c := by
  induction l with
  | nil => simp
  | cons a l ih => simp [ih]; ring

/-- `oMin` returns one of its two arguments. -/
theorem oMin_eq_left_or_right (a b : Option ℚ) : oMin a b = a ∨ oMin a b = b := by
  cases a with
  | none => cases b <;> exact .inr rfl
  | some x =>
    cases b with
    | none => exact .inl rfl
    | some y =>
      rcases min_choice x y with h | h
      · left; simp [oMin, h]
      · right; simp [oMin, h]

/-- `oMin` against a finite cell is finite and no larger than it. -/
theorem oMin_some_right (c : Option ℚ) (q : ℚ) :
    ∃ r, oMin c (some q) = some r ∧ r ≤ q := by
  cases c with
  | none => exact ⟨q, rfl, le_refl q⟩
  | some x => exact ⟨min x q, rfl, min_le_right x q⟩

/-- Every finite cell of the DTW cost lattice is nonnegative when the local
distance is (as the Euclidean norm is): each cell is a sum of local
distances. -/
theorem costMatrix_nonneg {α : Type} [Inhabited α] (d : α → α → ℚ)
    (hd : ∀ x y, 0 ≤ d x y) (xs ys : List α) :
    ∀ N i j, i + j ≤ N → ∀ q, costMatrix d xs ys i j = some q → 0 ≤ q := by
  intro N
  induction N with
  | zero =>
    intro i j hij q hq
    obtain ⟨rfl, rfl⟩ : i = 0 ∧ j = 0 := by omega
    simp only [costMatrix, Option.some.injEq] at hq
    exact le_of_eq hq
  | succ N ih =>
    intro i j hij q hq
    match i, j with
    | 0, 0 =>
      simp only [costMatrix, Option.some.injEq] at hq
      exact le_of_eq hq
    | 0, j + 1 => exact absurd hq (by simp [costMatrix])
    | i + 1, 0 => exact absurd hq (by simp [costMatrix])
    | i + 1, j + 1 =>
      simp only [costMatrix] at hq
      cases hmin : oMin (oMin (costMatrix d xs ys i (j + 1)) (costMatrix d xs ys (i + 1) j))
          (costMatrix d xs ys i j) with
      | none => rw [hmin] at hq; simp [oAdd] at hq
      | some r =>
        rw [hmin] at hq
        simp only [oAdd, Option.some.injEq] at hq
        have hr : 0 ≤ r := by
          rcases oMin_eq_left_or_right
              (oMin (costMatrix d xs ys i (j + 1)) (costMatrix d xs ys (i + 1) j))
              (costMatrix d xs ys i j) with h | h
          · rcases oMin_eq_left_or_right (costMatrix d xs ys i (j + 1))
                (costMatrix d xs ys (i + 1) j) with h2 | h2
            · exact ih i (j + 1) (by omega) r (by rw [← h2, ← h, hmin])
            · exact ih (i + 1) j (by omega) r (by rw [← h2, ← h, hmin])
          · exact ih i j (by omega) r (by rw [← h, hmin])
        have := hd (xs.getD i default) (ys.getD j default)
        linarith [hq.symm ▸ add_nonneg this hr]

/-- The diagonal of the cost lattice over a sequence and itself is finite and
nonpositive: the diagonal path only ever adds `d x x = 0`. -/
theorem costMatrix_diag_nonpos {α : Type} [Inhabited α] (d : α → α → ℚ)
    (hd : ∀ x, d x x = 0) (xs : List α) :
    ∀ i, ∃ q, costMatrix d xs xs i i = some q ∧ q ≤ 0 := by
  intro i
  induction i with
  | zero => exact ⟨0, by simp [costMatrix], le_refl 0⟩
  | succ i ih =>
    obtain ⟨q, hq, hq0⟩ := ih
    obtain ⟨r, hr, hrq⟩ := oMin_some_right
      (oMin (costMatrix d xs xs i (i + 1)) (costMatrix d xs xs (i + 1) i)) q
    refine ⟨r, ?_, le_trans hrq hq0⟩
    simp only [costMatrix]
    rw [hq, hr, hd, oAdd, zero_add]

/-! ### Claim theorems -/

/-- Claim C1: the spec promises that `check_violations` never raises and that
each of the five detector passes completes on every input.  The code breaks
this promise: `_check_madd_violations` reads the undefined name
`compulsible_madd_pattern` (tajweed_engine.py line 337; line 336 defines
`compulsory_madd_pattern`), so every call of `check_violations`, whatever the
text and audio features, raises `NameError` inside the first pass. -/
theorem C1_check_violations_always_raises (text : String)
    (audio_features : Option AudioFeatures) (timestamps : Option Unit) :
    check_violations text audio_features timestamps =
      .error "NameError: name compulsible_madd_pattern is not defined" := rfl

/-- Claim C2: the spec demands that the engine classify the nūn-sākin +
bā' occurrence in `نْب` as Iqlab.  In the code, `check_violations` on
that text raises the Madd-pass `NameError` before any classification, and the
only nūn-sākin detector, `_check_idgham_violations`, returns the empty list
on every text (its loop body is `pass`); no Iqlab, Ikhfa or Idhhar detector
exists, so no occurrence is ever classified at all. -/
theorem C2_iqlab_never_classified :
    check_violations "نْب" none none =
      .error "NameError: name compulsible_madd_pattern is not defined" ∧
    check_idgham_violations "نْب" = [] := ⟨rfl, rfl⟩

/-- Claim C3, counterexample: at dtwDistance 0, no phoneme scores, 20
violations, one prosody similarity of value 2 and no classified errors, the
code returns `0.71` while the spec formula (inner `min` on the tajweed term,
every term clamped) returns `0.65`; the code has neither the inner `min` nor
the per-term clamps. -/
theorem C3_fusion_counterexample :
    calculate_overall_score_enhanced 0 [] (List.replicate 20 violationEx) [("x", 2)] []
      = 71/100 ∧
    fuse_spec 0 [] (List.replicate 20 violationEx) [("x", 2)] [] = 13/20 ∧
    calculate_overall_score_enhanced 0 [] (List.replicate 20 violationEx) [("x", 2)] []
      ≠ fuse_spec 0 [] (List.replicate 20 violationEx) [("x", 2)] [] := by
  refine ⟨?_, ?_, ?_⟩ <;>
    norm_num [calculate_overall_score_enhanced, fuse_spec, clamp01, List.replicate]

/-- Claim C3, amended: the fusion formula of the code, with the same weights
and penalties as the spec but with no per-term clamps and with
`tajweedTerm = 1 - violationCount * 0.08` (no inner `min`, so it may go
negative); only the final combined value is clamped to `[0, 1]`. -/
theorem C3_fusion_amended (dtw_distance : ℚ) (phoneme_scores : List (String × ℚ))
    (tajweed_violations : List TajweedViolation) (prosody_scores : List (String × ℚ))
    (pronunciation_errors : List ClassifiedError) :
    calculate_overall_score_enhanced dtw_distance phoneme_scores tajweed_violations
        prosody_scores pronunciation_errors =
      fuse_amended dtw_distance phoneme_scores tajweed_violations
        prosody_scores pronunciation_errors := by
  unfold calculate_overall_score_enhanced fuse_amended clamp01
  simp only [sum_map_const]
  by_cases hp : phoneme_scores = [] <;> by_cases hq : prosody_scores = [] <;>
    simp only [hp, hq, ne_eq, not_true, not_false_iff, if_true, if_false,
      ite_true, ite_false, not_false_eq_true] <;>
  · congr 1
    congr 1
    ring

/-- Claim C4: for every input to score fusion, however extreme, the returned
overall score lies within `[0, 1]`; in particular 50 critical errors clamp
the score to `0` rather than driving it negative. -/
theorem C4_overall_score_in_unit_interval :
    (∀ (dtw_distance : ℚ) (phoneme_scores : List (String × ℚ))
        (tajweed_violations : List TajweedViolation) (prosody_scores : List (String × ℚ))
        (pronunciation_errors : List ClassifiedError),
      0 ≤ calculate_overall_score_enhanced dtw_distance phoneme_scores
            tajweed_violations prosody_scores pronunciation_errors ∧
      calculate_overall_score_enhanced dtw_distance phoneme_scores
            tajweed_violations prosody_scores pronunciation_errors ≤ 1) ∧
    calculate_overall_score_enhanced 0 [] [] []
      (List.replicate 50 { severity := "critical" }) = 0 := by
  constructor
  · intro d ph viol pros errs
    refine ⟨le_max_left _ _, max_le (by norm_num) (min_le_left _ _)⟩
  · norm_num [calculate_overall_score_enhanced, List.replicate]

/-- Claim C5, counterexample: on the empty-input call the code does not
return `0.775`; the spec's own formula `1*0.30 + 0.5*0.40 + 0.5*0.15 +
1*0.15` sums to `0.725`, and that is what the code returns. -/
theorem C5_empty_fusion_counterexample :
    calculate_overall_score_enhanced 0 [] [] [] [] ≠ 31/40 := by
  norm_num [calculate_overall_score_enhanced]

/-- Claim C5, amended: the empty-input call yields exactly
`1*0.30 + 0.5*0.40 + 0.5*0.15 + 1*0.15 = 0.725`. -/
theorem C5_empty_fusion_value :
    calculate_overall_score_enhanced 0 [] [] [] [] =
      1*(3/10) + (1/2)*(2/5) + (1/2)*(3/20) + 1*(3/20) := by
  norm_num [calculate_overall_score_enhanced]

/-- Claim C6, counterexample: with one empty input the aligner does not
return a finite sentinel.  `calculate_dtw_distance` on the empty sequence
against `[0]` is `none`, the model of the IEEE `inf` that the unreachable
lattice border propagates through the normalization. -/
theorem C6_dtw_empty_counterexample :
    calculate_dtw_distance rabs ([] : List ℚ) [0] = none := by
  simp [calculate_dtw_distance, costMatrix]

/-- Claim C6, amended: `align([], []) = 0`, and when exactly one sequence is
empty the function returns infinity (`none`), not a finite sentinel — the
`inf` border value of the cost lattice survives the division by
`max(n, m)`. -/
theorem C6_dtw_empty_amended {α : Type} [Inhabited α] (d : α → α → ℚ)
    (ys : List α) (h : ys ≠ []) :
    calculate_dtw_distance d ([] : List α) [] = some 0 ∧
    calculate_dtw_distance d [] ys = none ∧
    calculate_dtw_distance d ys [] = none := by
  obtain ⟨y, ys', rfl⟩ := List.exists_cons_of_ne_nil h
  refine ⟨?_, ?_, ?_⟩ <;> simp [calculate_dtw_distance, costMatrix]

/-- Witness for C6's amended theorem at the concrete one-element sequence
`[0]` over `ℚ` with the absolute-difference local distance. -/
theorem C6_dtw_empty_amended_witness :
    calculate_dtw_distance rabs ([] : List ℚ) [] = some 0 ∧
    calculate_dtw_distance rabs ([] : List ℚ) [0] = none ∧
    calculate_dtw_distance rabs [(0 : ℚ)] [] = none :=
  C6_dtw_empty_amended rabs [0] (by simp)

/-- Claim C7: for every nonempty feature sequence `A`, the normalized DTW
distance of `A` against itself is exactly zero.  The theorem is parametric
in the local distance and assumes the two properties of the Euclidean norm
the algorithm relies on: `d x x = 0` and `0 ≤ d x y`.  The diagonal path
shows the final lattice cell is at most `0`; nonnegativity of every finite
cell shows it is at least `0`; dividing by `max(n, n) = n > 0` keeps it
`0`. -/
theorem C7_dtw_self_is_zero {α : Type} [Inhabited α] (d : α → α → ℚ)
    (hd0 : ∀ x, d x x = 0) (hdnn : ∀ x y, 0 ≤ d x y)
    (A : List α) (hA : A ≠ []) :
    calculate_dtw_distance d A A = some 0 := by
  obtain ⟨q, hq, hq0⟩ := costMatrix_diag_nonpos d hd0 A A.length
  have h0 : 0 ≤ q :=
    costMatrix_nonneg d hdnn A A (A.length + A.length) A.length A.length le_rfl q hq
  obtain rfl : q = 0 := le_antisymm hq0 h0
  have hl : 0 < A.length := List.length_pos.mpr hA
  simp [calculate_dtw_distance, hq, hl]

/-- Witness for C7 at the concrete sequence `[1, 2]` over `ℚ` with the
absolute-difference local distance. -/
theorem C7_dtw_self_is_zero_witness :
    calculate_dtw_distance rabs [(1 : ℚ), 2] [1, 2] = some 0 :=
  C7_dtw_self_is_zero rabs (fun x => by simp [rabs]) (fun x y => abs_nonneg (x - y))
    [1, 2] (by simp)

/-- The code's per-feature prosody block equals the amended per-feature
contract. -/
theorem codeFeature_eq_amendedFeature (nm : String) (a b : Option ℚ) :
    (if truthy a && truthy b then [(nm, simTerm (a.getD 0) (b.getD 0))] else []) =
      amendedFeature nm a b := by
  cases a with
  | none => simp [truthy, amendedFeature]
  | some x =>
    cases b with
    | none => simp [truthy, amendedFeature]
    | some y =>
      by_cases hx : x = 0 <;> by_cases hy : y = 0 <;>
        simp [truthy, amendedFeature, hx, hy, simTerm]
      split_ifs <;> norm_num

/-- Claim C8, counterexample: with average pitch `0` and max intensity `5`
present in both summaries, the code returns the empty map — the zero pitch is
falsy and treated as missing (not similarity `1.0`), and `max_intensity` is
never compared — while the spec formula returns entries for both
features. -/
theorem C8_prosody_counterexample :
    compare_prosody ⟨some 0, none, some 5, none, none⟩ ⟨some 0, none, some 5, none, none⟩
      = [] ∧
    compare_prosody_spec ⟨some 0, none, some 5, none, none⟩ ⟨some 0, none, some 5, none, none⟩
      = [("pitch_similarity", 1), ("max_intensity_similarity", 1)] ∧
    compare_prosody ⟨some 0, none, some 5, none, none⟩ ⟨some 0, none, some 5, none, none⟩
      ≠ compare_prosody_spec ⟨some 0, none, some 5, none, none⟩
          ⟨some 0, none, some 5, none, none⟩ := by
  refine ⟨rfl, ?_, ?_⟩
  · norm_num [compare_prosody_spec]
  · norm_num [compare_prosody, compare_prosody_spec, truthy]
    exact List.cons_ne_nil _ _

/-- Claim C8, amended: the comparator handles only average pitch, average
intensity, duration and speech rate (never max intensity); a feature is
compared only when it is present with a nonzero value in both summaries, in
which case `similarity = 1 - abs(a-b)/max(a,b)` when `max(a,b) > 0` and `1`
otherwise; a feature that is missing, or zero, on either side is omitted.
Comparing average pitches 100 and 150 yields `1 - 50/150 = 2/3`. -/
theorem C8_prosody_amended :
    (∀ user_prosody reference_prosody : ProsodySummary,
      compare_prosody user_prosody reference_prosody =
        compare_prosody_amended user_prosody reference_prosody) ∧
    compare_prosody ⟨some 100, none, none, none, none⟩ ⟨some 150, none, none, none, none⟩
      = [("pitch_similarity", 2/3)] := by
  constructor
  · intro u r
    simp only [compare_prosody, compare_prosody_amended, codeFeature_eq_amendedFeature]
  · norm_num [compare_prosody, simTerm, truthy]

/-- Claim C9, counterexample: the ASR collaborator supplied a true per-word
confidence (`0.9` for every word of `a b c`), yet aligning against `a x c`
yields confidences `1.0` on the two matches and `0.5` on the mismatch — the
supplied `0.9` is never used. -/
theorem C9_word_confidence_counterexample :
    (asrEx.segments.map fun s => s.words.map fun w => w.confidence) = [[9/10, 9/10, 9/10]] ∧
    (get_word_alignment asrEx "a x c").map (fun e => e.confidence) = [1, 1/2, 1] ∧
    (9 : ℚ)/10 ∉ ([1, 1/2, 1] : List ℚ) := by
  refine ⟨rfl, rfl, by norm_num⟩

/-- Claim C9, amended: the aligner tokenizes both texts by whitespace and
returns exactly `min` of the token counts entries, comparing position `i` and
dropping trailing tokens of the longer side; confidence is always `1.0` on
an exact match and the fixed `0.5` otherwise — ASR-supplied per-word
confidences are never consulted (the output depends only on the transcript
text).  Aligning `a b c` against `a x c` yields 3 entries with exactly one
mismatch, at position 1. -/
theorem C9_word_alignment_amended :
    (∀ (asr_result : ASRResult) (reference_text : String),
      get_word_alignment asr_result reference_text =
        word_align_amended asr_result.text reference_text) ∧
    ((get_word_alignment asrEx "a x c").map fun e => (e.isMatch, e.position, e.confidence)) =
      [(true, 0, 1), (false, 1, 1/2), (true, 2, 1)] := by
  refine ⟨?_, rfl⟩
  intro asr ref
  apply List.ext_getElem
  · simp [get_word_alignment, word_align_amended]
  · intro i h1 h2
    have hlen : i < min (tokenize asr.text).length (tokenize ref).length := by
      simpa [get_word_alignment] using h1
    have ha : i < (tokenize asr.text).length := lt_of_lt_of_le hlen (Nat.min_le_left _ _)
    have hr : i < (tokenize ref).length := lt_of_lt_of_le hlen (Nat.min_le_right _ _)
    simp only [get_word_alignment, word_align_amended, List.getElem_map,
      List.getElem_range, List.getElem_enum, List.getElem_zip,
      List.getD_eq_getElem _ _ ha, List.getD_eq_getElem _ _ hr]

/-- A left fold of `max` never drops below its initial value. -/
theorem init_le_foldl_max (l : List ℚ) : ∀ s : ℚ, s ≤ l.foldl max s := by
  induction l with
  | nil => intro s; exact le_refl s
  | cons a l ih =>
    intro s
    calc s ≤ max s a := le_max_left s a
    _ ≤ (a :: l).foldl max s := ih (max s a)

/-- A left fold of `max` is bounded by any common upper bound of the initial
value and the list elements. -/
theorem foldl_max_le (l : List ℚ) : ∀ s c : ℚ, (∀ a ∈ l, a ≤ c) → s ≤ c →
    l.foldl max s ≤ c := by
  induction l with
  | nil => intro s c _ hs; exact hs
  | cons a l ih =>
    intro s c hl hs
    exact ih (max s a) c (fun b hb => hl b (List.mem_cons_of_mem a hb))
      (max_le hs (hl a (List.mem_cons_self a l)))

/-- Every list element is bounded by the left fold of `max`. -/
theorem le_foldl_max_of_mem (l : List ℚ) : ∀ (s a : ℚ), a ∈ l → a ≤ l.foldl max s := by
  induction l with
  | nil => intro s a ha; exact absurd ha (List.not_mem_nil a)
  | cons b l ih =>
    intro s a ha
    rcases List.mem_cons.mp ha with rfl | ha
    · exact le_trans (le_max_right s a) (init_le_foldl_max l (max s a))
    · exact ih (max s b) a ha

/-- The running-best fold of `compare_with_multiple_references`, from an
arbitrary accumulator: its final best score is the fold of `max` over the
per-reference scores, and its final best feedback is the first one attaining
that maximum when the maximum strictly improves on the initial score, the
initial feedback otherwise. -/
theorem bestOfN_foldl {Fb RefPath : Type} (overallScore : Fb → ℚ) (analyze : RefPath → Fb) :
    ∀ (refs : List RefPath) (fb0 : Option Fb) (s0 : ℚ),
      (refs.foldl
        (fun (best : Option Fb × ℚ) ref_path =>
          let feedback := analyze ref_path
          if overallScore feedback > best.2 then (some feedback, overallScore feedback)
          else best)
        (fb0, s0)) =
      (if (refs.map fun r => overallScore (analyze r)).foldl max s0 > s0 then
        (refs.map analyze).find? (fun fb =>
          overallScore fb == (refs.map fun r => overallScore (analyze r)).foldl max s0)
       else fb0,
       (refs.map fun r => overallScore (analyze r)).foldl max s0) := by
  intro refs
  induction refs with
  | nil => intro fb0 s0; simp
  | cons r rest ih =>
    intro fb0 s0
    by_cases ha : overallScore (analyze r) > s0
    · have hmax : max s0 (overallScore (analyze r)) = overallScore (analyze r) :=
        max_eq_right (le_of_lt ha)
      have hM : overallScore (analyze r) ≤
          (rest.map fun x => overallScore (analyze x)).foldl max (overallScore (analyze r)) :=
        init_le_foldl_max _ _
      simp only [List.foldl_cons, List.map_cons, if_pos ha, hmax, List.find?]
      rw [ih (some (analyze r)) (overallScore (analyze r))]
      by_cases hM2 : (rest.map fun x => overallScore (analyze x)).foldl max
          (overallScore (analyze r)) > overallScore (analyze r)
      · have hne : (overallScore (analyze r) ==
            (rest.map fun x => overallScore (analyze x)).foldl max
              (overallScore (analyze r))) = false := by
          simp only [beq_eq_false_iff_ne, ne_eq]
          exact fun hEq => absurd hEq (ne_of_lt hM2)
        simp [if_pos hM2, if_pos (lt_of_lt_of_le ha hM), hne]
      · have hEq : (rest.map fun x => overallScore (analyze x)).foldl max
            (overallScore (analyze r)) = overallScore (analyze r) :=
          le_antisymm (not_lt.mp hM2) hM
        have hbeq : (overallScore (analyze r) ==
            (rest.map fun x => overallScore (analyze x)).foldl max
              (overallScore (analyze r))) = true := by
          simp [hEq]
        simp [if_neg hM2, hEq, if_pos ha, hbeq]
    · have hmax : max s0 (overallScore (analyze r)) = s0 := max_eq_left (not_lt.mp ha)
      simp only [List.foldl_cons, List.map_cons, if_neg ha, hmax, List.find?]
      rw [ih fb0 s0]
      by_cases hM2 : (rest.map fun x => overallScore (analyze x)).foldl max s0 > s0
      · have hne : (overallScore (analyze r) ==
            (rest.map fun x => overallScore (analyze x)).foldl max s0) = false := by
          simp only [beq_eq_false_iff_ne, ne_eq]
          intro hEq
          exact absurd (hEq ▸ hM2) (not_lt.mpr (not_lt.mp ha))
        simp [if_pos hM2, hne]
      · simp [if_neg hM2]

/-- Claim C10: with per-reference scores all nonnegative (as the clamped
overall scores of `analyze_pronunciation` are), the best-of-N comparison
returns `None` exactly when the reference list is empty or every analysis
scores `0.0`, and otherwise returns the first report, in reference-list
order, attaining the greatest overall score. -/
theorem C10_best_of_n {Fb RefPath : Type} (overallScore : Fb → ℚ) (analyze : RefPath → Fb)
    (reference_paths : List RefPath)
    (h : ∀ r ∈ reference_paths, 0 ≤ overallScore (analyze r)) :
    ((reference_paths = [] ∨ ∀ r ∈ reference_paths, overallScore (analyze r) = 0) →
      compare_with_multiple_references overallScore analyze reference_paths = none) ∧
    ((∃ r ∈ reference_paths, overallScore (analyze r) ≠ 0) →
      compare_with_multiple_references overallScore analyze reference_paths =
        (reference_paths.map analyze).find? (fun fb =>
          overallScore fb ==
            (reference_paths.map fun r => overallScore (analyze r)).foldl max 0)) := by
  have hfold := bestOfN_foldl overallScore analyze reference_paths none 0
  constructor
  · rintro (rfl | hall)
    · rfl
    · have hM : (reference_paths.map fun r => overallScore (analyze r)).foldl max 0 ≤ 0 :=
        foldl_max_le _ 0 0
          (by
            intro a hamem
            obtain ⟨r, hr, rfl⟩ := List.mem_map.mp hamem
            exact le_of_eq (hall r hr))
          le_rfl
      unfold compare_with_multiple_references
      rw [hfold]
      simp [not_lt.mpr hM]
  · rintro ⟨r, hr, hne⟩
    have hpos : 0 < overallScore (analyze r) := lt_of_le_of_ne (h r hr) (Ne.symm hne)
    have hM : overallScore (analyze r) ≤
        (reference_paths.map fun x => overallScore (analyze x)).foldl max 0 :=
      le_foldl_max_of_mem _ 0 _ (List.mem_map.mpr ⟨r, hr, rfl⟩)
    unfold compare_with_multiple_references
    rw [hfold]
    simp [lt_of_lt_of_le hpos hM]

/-- Witness for C10 at scores `[0, 1/2, 1/2]` (feedbacks are the scores
themselves): the first reference attaining the maximum `1/2` is returned. -/
theorem C10_best_of_n_witness :
    compare_with_multiple_references id id [(0 : ℚ), 1/2, 1/2] = some (1/2) := by
  have := (C10_best_of_n id id [(0 : ℚ), 1/2, 1/2]
      (by intro r hr; fin_cases hr <;> norm_num)).2
    ⟨1/2, by norm_num, by norm_num⟩
  rw [this]
  norm_num [List.find?]
  rw [show ((0 : ℚ) == 1/2) = false from beq_eq_false_iff_ne.mpr (by norm_num)]

end QuranMemorizer
